import Mathlib

/-!
Verification of the VoteDeck room-state store (`src/store/roomStore.ts`) and
the REVEAL countdown handler (`src/socket/handlers.ts`, countdown variant).

The two backing stores are embedded as explicit state:
* `Pg`   — the Durable Store (Postgres rows for rooms, users, participants, votes);
* `Fast` — the Fast Store (Redis keys: per-room meta hash, member set,
  user-data hash, vote hash, per-(room,user) socket set).

Every store operation is a function `Sys → Except Unit (α × Sys)`:
`.error ()` models a thrown exception reaching the caller.  The flags
`fastUp` / `pgUp` model whether the corresponding backing store is
reachable; an operation on an unreachable store throws unless the source
wraps that call in `try/catch`, in which case the catch branch is taken.
-/

set_option autoImplicit false

namespace VoteDeck

/-! ## Association-list and set primitives (Redis hash / set semantics) -/

/-- Lookup in an association list (Redis `HGET`, or whole-key lookup). -/
def alookup {κ α : Type} [DecidableEq κ] : List (κ × α) → κ → Option α
  | [], _ => none
  | p :: rest, k => if p.1 = k then some p.2 else alookup rest k

/-- Upsert into an association list (Redis `HSET` of one field / `SET` of a key). -/
def aset {κ α : Type} [DecidableEq κ] : List (κ × α) → κ → α → List (κ × α)
  | [], k, v => [(k, v)]
  | p :: rest, k, v => if p.1 = k then (k, v) :: rest else p :: aset rest k v

/-- Delete from an association list (Redis `HDEL` of one field / `DEL` of a key). -/
def adel {κ α : Type} [DecidableEq κ] : List (κ × α) → κ → List (κ × α)
  | [], _ => []
  | p :: rest, k => if p.1 = k then adel rest k else p :: adel rest k

/-- Redis `SADD`: add an element to a set if not present. -/
def sadd (l : List String) (x : String) : List String :=
  if x ∈ l then l else l ++ [x]

/-- Redis `SREM`: remove an element from a set. -/
def sremL : List String → String → List String
  | [], _ => []
  | y :: rest, x => if y = x then sremL rest x else y :: sremL rest x

/-- JavaScript truthiness of a vote-map entry: present and not the empty string. -/
def truthy : Option String → Bool
  | none => false
  | some v => v ≠ ""

/-! ## Data model -/

/-- The per-room Redis meta hash (`room:{id}:meta`), fields as written by
`createRoom` / `getRoom` repopulation.  `revealed` is stored as a string,
exactly as in the source. -/
structure MetaHash where
  mid : String
  mname : String
  adminId : String
  votingSystem : String
  revealPolicy : String
  revealed : String
  createdAt : String
deriving Repr, DecidableEq

/-- The serialized user record stored in the `room:{id}:user_data` hash.
Only `id` and `name` are ever read back (`data.name`). -/
structure UserData where
  uid : String
  uname : String
deriving Repr, DecidableEq

/-- Fast Store (Redis) contents relevant to the room store. -/
structure Fast where
  meta : List (String × MetaHash)
  members : List (String × List String)
  userData : List (String × List (String × UserData))
  votes : List (String × List (String × String))
  sockets : List ((String × String) × List String)
deriving Repr, DecidableEq

/-- A row of the durable `rooms` table. -/
structure PgRoom where
  rid : String
  rname : String
  adminId : String
  votingSystem : String
  revealed : Bool
  createdAt : Int
deriving Repr, DecidableEq

/-- A row of the durable `users` table. -/
structure PgUser where
  uid : String
  uname : String
deriving Repr, DecidableEq

/-- A row of the durable `participants` table (unique on (room, user)). -/
structure PgParticipant where
  roomId : String
  userId : String
  joinedAt : Int
deriving Repr, DecidableEq

/-- A row of the durable `votes` table (unique on (room, user)). -/
structure PgVote where
  roomId : String
  userId : String
  value : String
deriving Repr, DecidableEq

/-- Durable Store (Postgres) contents. -/
structure Pg where
  rooms : List PgRoom
  users : List PgUser
  participants : List PgParticipant
  votes : List PgVote
deriving Repr, DecidableEq

/-- Whole system state: both stores plus their reachability. -/
structure Sys where
  fast : Fast
  pg : Pg
  fastUp : Bool
  pgUp : Bool
deriving Repr, DecidableEq

/-- The room object returned by `getRoom` (the spread meta with `revealed`
decoded to a boolean).  The meta hash never carries an `enableCountdown`
field, so neither does this view. -/
structure RoomView where
  id : String
  name : String
  adminId : String
  votingSystem : String
  revealPolicy : String
  revealed : Bool
  createdAt : String
deriving Repr, DecidableEq

/-- One entry of `RoomState.users`. -/
structure MemberView where
  id : String
  name : String
  hasVoted : Bool
deriving Repr, DecidableEq

/-- The derived `RoomState` returned by `getRoomState`. -/
structure RoomState where
  id : String
  name : String
  adminId : String
  votingSystem : String
  revealPolicy : String
  users : List MemberView
  votes : List (String × Option String)
  revealed : Bool
deriving Repr, DecidableEq

/-! ## `getRoom` -/

/-- Decoding of the meta hash done at the end of `getRoom`:
`revealed: String(meta.revealed) === 'true'`. -/
def metaToView (m : MetaHash) : RoomView :=
  { id := m.mid, name := m.mname, adminId := m.adminId,
    votingSystem := m.votingSystem, revealPolicy := m.revealPolicy,
    revealed := m.revealed = "true", createdAt := m.createdAt }

/-- `prisma.room.findUnique({ where: { id } })`. -/
def pgFindRoom (pg : Pg) (roomId : String) : Option PgRoom :=
  pg.rooms.find? (fun r => r.rid == roomId)

/-- `roomStore.getRoom`: Redis hash first (lookup failure caught), Postgres
fallback, best-effort Redis repopulation (failure caught). -/
def getRoom (roomId : String) (s : Sys) : Except Unit (Option RoomView × Sys) :=
  -- try { meta = hgetall } catch { fall through }: a down Fast Store leaves meta null
  let meta0 : Option MetaHash := if s.fastUp then alookup s.fast.meta roomId else none
  match meta0 with
  | some m => .ok (some (metaToView m), s)
  | none =>
    if !s.pgUp then .error ()
    else
      match pgFindRoom s.pg roomId with
      | none => .ok (none, s)
      | some pgRoom =>
        let m : MetaHash :=
          { mid := pgRoom.rid, mname := pgRoom.rname, adminId := pgRoom.adminId,
            votingSystem := pgRoom.votingSystem, revealPolicy := "everyone",
            revealed := if pgRoom.revealed then "true" else "false",
            createdAt := toString pgRoom.createdAt }
        -- try { hset; expire } catch { log only }
        let s' := if s.fastUp then
            { s with fast := { s.fast with meta := aset s.fast.meta roomId m } }
          else s
        .ok (some (metaToView m), s')

/-! ## `getRoomState` -/

/-- `hgetall` of a nested hash key, with the source's `|| {}` default. -/
def hgetallH {α : Type} (l : List (String × List (String × α))) (k : String) :
    List (String × α) :=
  (alookup l k).getD []

/-- One entry of the member list built by `getRoomState` (`userIds.map`):
name from the parsed user-data record (`data.name || 'Unknown'`, with the
`{id, name: 'Unknown'}` fallback when the record is absent), `hasVoted`
from truthiness of the vote-map entry. -/
def mkMember (udMap : List (String × UserData)) (voteMap : List (String × String))
    (id : String) : MemberView :=
  { id := id,
    name :=
      match alookup udMap id with
      | some d => if d.uname = "" then "Unknown" else d.uname
      | none => "Unknown",
    hasVoted := truthy (alookup voteMap id) }

/-- Final assembly of the `RoomState` object in `getRoomState`: the member
list, and the viewer-dependent votes record (all entries when revealed;
otherwise only the viewer's own truthy vote). -/
def buildState (meta : RoomView) (forUserId : Option String) (userIds : List String)
    (udMap : List (String × UserData)) (voteMap : List (String × String)) : RoomState :=
  { id := meta.id, name := meta.name, adminId := meta.adminId,
    votingSystem := meta.votingSystem, revealPolicy := meta.revealPolicy,
    users := userIds.map (mkMember udMap voteMap),
    votes :=
      if meta.revealed then userIds.map (fun id => (id, alookup voteMap id))
      else
        match forUserId with
        | none => []
        | some fu =>
          match alookup voteMap fu with
          | none => []
          | some v => if v = "" then [] else [(fu, some v)],
    revealed := meta.revealed }

/-- The read-and-rehydrate phase of `getRoomState`: reads member set,
user-data hash and vote hash; if the member set is empty, restores users
and votes from Postgres (updating the local variables for this response);
otherwise, if some member's vote entry is missing, restores the votes.
Returns the (possibly rehydrated) local values and the updated state. -/
def loadRoomData (roomId : String) (s1 : Sys) :
    Except Unit ((List String × List (String × UserData) × List (String × String)) × Sys) :=
  let userIds0 := (alookup s1.fast.members roomId).getD []
  let udMap0 := hgetallH s1.fast.userData roomId
  let voteMap0 := hgetallH s1.fast.votes roomId
  if userIds0.isEmpty then
    -- participant.findMany (unguarded Postgres read)
    if !s1.pgUp then .error ()
    else
      let participants := s1.pg.participants.filter (fun p => p.roomId == roomId)
      if participants.isEmpty then .ok ((userIds0, udMap0, voteMap0), s1)
      else
        let pUserIds := participants.map (fun p => p.userId)
        let users := s1.pg.users.filter (fun u => pUserIds.contains u.uid)
        let pgVotes := s1.pg.votes.filter (fun v => v.roomId == roomId)
        if users.isEmpty then .ok ((userIds0, udMap0, voteMap0), s1)
        else
          let userIds := userIds0 ++ users.map (fun u => u.uid)
          let udMap := users.foldl (fun m u => aset m u.uid ⟨u.uid, u.uname⟩) udMap0
          let voteMap := pgVotes.foldl (fun m v => aset m v.userId v.value) voteMap0
          let fMembers := users.foldl (fun l u => sadd l u.uid) userIds0
          let fast' :=
            { s1.fast with
              members := aset s1.fast.members roomId fMembers,
              userData := aset s1.fast.userData roomId udMap,
              votes := aset s1.fast.votes roomId voteMap }
          .ok ((userIds, udMap, voteMap), { s1 with fast := fast' })
  else
    let missing := userIds0.any (fun id => !truthy (alookup voteMap0 id))
    if missing then
      if !s1.pgUp then .error ()
      else
        let pgVotes := s1.pg.votes.filter (fun v => v.roomId == roomId)
        if pgVotes.isEmpty then .ok ((userIds0, udMap0, voteMap0), s1)
        else
          let voteMap := pgVotes.foldl (fun m v => aset m v.userId v.value) voteMap0
          let fast' := { s1.fast with votes := aset s1.fast.votes roomId voteMap }
          .ok ((userIds0, udMap0, voteMap), { s1 with fast := fast' })
    else .ok ((userIds0, udMap0, voteMap0), s1)

/-- `roomStore.getRoomState`: meta via `getRoom`, then the Redis reads and
rehydration of `loadRoomData` (these Redis calls are not wrapped in
`try/catch`, so a down Fast Store throws), then state assembly. -/
def getRoomState (roomId : String) (forUserId : Option String) (s : Sys) :
    Except Unit (Option RoomState × Sys) :=
  match getRoom roomId s with
  | .error e => .error e
  | .ok (none, s1) => .ok (none, s1)
  | .ok (some meta, s1) =>
    if !s1.fastUp then .error ()
    else
      match loadRoomData roomId s1 with
      | .error e => .error e
      | .ok ((userIds, udMap, voteMap), s2) =>
        .ok (some (buildState meta forUserId userIds udMap voteMap), s2)

/-! ## Vote lifecycle: `castVote`, `revealVotes`, `resetVotes` -/

/-- `HSET` of one field in a nested hash (creating the outer key if absent). -/
def hsetF {α : Type} (l : List (String × List (String × α))) (k field : String) (v : α) :
    List (String × List (String × α)) :=
  aset l k (aset ((alookup l k).getD []) field v)

/-- `HDEL` of one field in a nested hash (no-op when the outer key is absent). -/
def hdelF {α : Type} (l : List (String × List (String × α))) (k field : String) :
    List (String × List (String × α)) :=
  match alookup l k with
  | none => l
  | some h => aset l k (adel h field)

/-- `roomStore.castVote`: rejected when the room resolves to nothing or is
revealed; an empty value deletes the (room, user) vote in Redis and
Postgres; a non-empty value upserts it in both. -/
def castVote (roomId userId value : String) (s : Sys) : Except Unit (Bool × Sys) :=
  match getRoom roomId s with
  | .error e => .error e
  | .ok (none, s1) => .ok (false, s1)
  | .ok (some room, s1) =>
    if room.revealed then .ok (false, s1)
    else if value = "" then
      if !s1.fastUp then .error ()
      else
        let s2 := { s1 with fast := { s1.fast with votes := hdelF s1.fast.votes roomId userId } }
        if !s1.pgUp then .error ()
        else
          .ok (true, { s2 with pg := { s2.pg with
            votes := s2.pg.votes.filter (fun v => !(v.roomId == roomId && v.userId == userId)) } })
    else
      if !s1.fastUp then .error ()
      else
        let s2 := { s1 with fast := { s1.fast with votes := hsetF s1.fast.votes roomId userId value } }
        if !s1.pgUp then .error ()
        else
          let pgVotes' :=
            if (s2.pg.votes.find? (fun v => v.roomId == roomId && v.userId == userId)).isSome
            then s2.pg.votes.map (fun v =>
              if v.roomId == roomId && v.userId == userId then { v with value := value } else v)
            else s2.pg.votes ++ [⟨roomId, userId, value⟩]
          .ok (true, { s2 with pg := { s2.pg with votes := pgVotes' } })

/-- In-place update of the stored meta hash (`HSET` of single fields, under
the `EXISTS` guard that precedes every such write in the source). -/
def modifyMeta (s : Sys) (roomId : String) (f : MetaHash → MetaHash) : Sys :=
  match alookup s.fast.meta roomId with
  | none => s
  | some m => { s with fast := { s.fast with meta := aset s.fast.meta roomId (f m) } }

/-- `prisma.room.update`: throws when the durable row is absent or the
Durable Store is down. -/
def pgUpdateRoom (roomId : String) (f : PgRoom → PgRoom) (s : Sys) : Except Unit Sys :=
  if !s.pgUp then .error ()
  else if (pgFindRoom s.pg roomId).isNone then .error ()
  else .ok { s with pg := { s.pg with
    rooms := s.pg.rooms.map (fun r => if r.rid == roomId then f r else r) } }

/-- `roomStore.revealVotes`: `EXISTS` guard, Redis `revealed:'true'`, then
durable `revealed=true`. -/
def revealVotes (roomId : String) (s : Sys) : Except Unit (Bool × Sys) :=
  if !s.fastUp then .error ()
  else
    match alookup s.fast.meta roomId with
    | none => .ok (false, s)
    | some m =>
      let s1 := { s with fast := { s.fast with
        meta := aset s.fast.meta roomId { m with revealed := "true" } } }
      match pgUpdateRoom roomId (fun r => { r with revealed := true }) s1 with
      | .error e => .error e
      | .ok s2 => .ok (true, s2)

/-- `roomStore.resetVotes`: `EXISTS` guard, Redis `revealed:'false'` and
`DEL` of the vote hash, durable `revealed=false` and `vote.deleteMany`. -/
def resetVotes (roomId : String) (s : Sys) : Except Unit (Bool × Sys) :=
  if !s.fastUp then .error ()
  else
    match alookup s.fast.meta roomId with
    | none => .ok (false, s)
    | some m =>
      let s1 := { s with fast := { s.fast with
        meta := aset s.fast.meta roomId { m with revealed := "false" },
        votes := adel s.fast.votes roomId } }
      match pgUpdateRoom roomId (fun r => { r with revealed := false }) s1 with
      | .error e => .error e
      | .ok s2 =>
        .ok (true, { s2 with pg := { s2.pg with
          votes := s2.pg.votes.filter (fun v => v.roomId != roomId) } })

/-- The deferred phase-2 body of the countdown REVEAL handler
(`setTimeout` callback): re-fetch the room; reveal only if it still exists
and is not already revealed. -/
def revealPhase2 (roomId : String) (s : Sys) : Except Unit Sys :=
  match getRoom roomId s with
  | .error e => .error e
  | .ok (none, s1) => .ok s1
  | .ok (some room, s1) =>
    if room.revealed then .ok s1
    else
      match revealVotes roomId s1 with
      | .error e => .error e
      | .ok (_, s2) => .ok s2

/-! ## Settings, membership, deletion, counting -/

/-- The runtime payload of UPDATE_SETTINGS (`UpdateSettingsPayload`). -/
structure UpdateSettingsPayload where
  name : Option String
  votingSystem : Option String
  revealPolicy : Option String
  enableCountdown : Option Bool
deriving Repr, DecidableEq

/-- One optional dual-store field write of `updateSettings`: absent field —
no write; present field — Redis `HSET` of that meta field, then the
durable `room.update` of the corresponding column. -/
def settingsStep (roomId : String) (o : Option String)
    (f : String → MetaHash → MetaHash) (g : String → PgRoom → PgRoom) (s : Sys) :
    Except Unit Sys :=
  match o with
  | none => .ok s
  | some n => pgUpdateRoom roomId (g n) (modifyMeta s roomId (f n))

/-- `roomStore.updateSettings`: `EXISTS` guard, then per-field writes —
`name` and `votingSystem` to Redis and Postgres, `revealPolicy` to Redis
only.  The function's parameter type is
`Partial<Pick<Room, 'name' | 'votingSystem' | 'revealPolicy'>>`, so a
supplied `enableCountdown` is never read. -/
def updateSettings (roomId : String) (u : UpdateSettingsPayload) (s : Sys) :
    Except Unit (Bool × Sys) :=
  if !s.fastUp then .error ()
  else if (alookup s.fast.meta roomId).isNone then .ok (false, s)
  else
    match settingsStep roomId u.name (fun n m => { m with mname := n })
        (fun n r => { r with rname := n }) s with
    | .error e => .error e
    | .ok s1 =>
      match settingsStep roomId u.votingSystem (fun n m => { m with votingSystem := n })
          (fun n r => { r with votingSystem := n }) s1 with
      | .error e => .error e
      | .ok s2 =>
        let s3 :=
          match u.revealPolicy with
          | none => s2
          | some rp => modifyMeta s2 roomId (fun m => { m with revealPolicy := rp })
        .ok (true, s3)

/-- `roomStore.removeUser`: `getRoom` guard, then `SREM` from the member
set and `DEL` of the user's socket set. -/
def removeUser (roomId userId : String) (s : Sys) : Except Unit (Bool × Sys) :=
  match getRoom roomId s with
  | .error e => .error e
  | .ok (none, s1) => .ok (false, s1)
  | .ok (some _, s1) =>
    if !s1.fastUp then .error ()
    else
      .ok (true, { s1 with fast := { s1.fast with
        members := aset s1.fast.members roomId
          (sremL ((alookup s1.fast.members roomId).getD []) userId),
        sockets := adel s1.fast.sockets (roomId, userId) } })

/-- `roomStore.removeSocketFromUser`: `SREM` the one socket, `SCARD` the
remainder; only when the set became empty is the user removed from the
room. -/
def removeSocketFromUser (roomId userId socketId : String) (s : Sys) :
    Except Unit (Bool × Sys) :=
  if !s.fastUp then .error ()
  else
    let set1 := sremL ((alookup s.fast.sockets (roomId, userId)).getD []) socketId
    let s1 := { s with fast := { s.fast with
      sockets := aset s.fast.sockets (roomId, userId) set1 } }
    if set1.length > 0 then .ok (false, s1)
    else removeUser roomId userId s1

/-- `roomStore.deleteRoom`: collect the room's Redis keys (meta, member
set, user-data hash, vote hash, each current member's socket set) and
delete them — `SMEMBERS` and `DEL` are not wrapped in `try/catch`, so a
down Fast Store throws.  The Postgres deletes are in `try/catch`:
failure there returns `false`. -/
def deleteRoom (roomId : String) (s : Sys) : Except Unit (Bool × Sys) :=
  if !s.fastUp then .error ()
  else
    let userIds := (alookup s.fast.members roomId).getD []
    let fast' :=
      { s.fast with
        meta := adel s.fast.meta roomId,
        members := adel s.fast.members roomId,
        userData := adel s.fast.userData roomId,
        votes := adel s.fast.votes roomId,
        sockets := s.fast.sockets.filter
          (fun p => !(p.1.1 == roomId && userIds.contains p.1.2)) }
    let s1 := { s with fast := fast' }
    if !s.pgUp then .ok (false, s1)
    else
      let pg1 :=
        { s1.pg with
          participants := s1.pg.participants.filter (fun p => p.roomId != roomId),
          votes := s1.pg.votes.filter (fun v => v.roomId != roomId) }
      -- prisma.room.delete throws when the row is absent; caught → false
      match pgFindRoom pg1 roomId with
      | none => .ok (false, { s1 with pg := pg1 })
      | some _ =>
        .ok (true, { s1 with pg :=
          { pg1 with rooms := pg1.rooms.filter (fun r => r.rid != roomId) } })

/-- `roomStore.getActiveUserCount`: 0 when the room resolves to nothing,
else the member set minus the admin id. -/
def getActiveUserCount (roomId : String) (s : Sys) : Except Unit (Nat × Sys) :=
  match getRoom roomId s with
  | .error e => .error e
  | .ok (none, s1) => .ok (0, s1)
  | .ok (some room, s1) =>
    if !s1.fastUp then .error ()
    else
      .ok ((((alookup s1.fast.members roomId).getD []).filter
        (fun i => i != room.adminId)).length, s1)

/-- An entry of `getUserRooms`' result (`{...room, activeUsers}`). -/
structure RoomSummary where
  id : String
  rname : String
  createdAt : Int
  adminId : String
  activeUsers : Nat
deriving Repr, DecidableEq

/-- Stable descending insertion by `createdAt` (`orderBy createdAt desc` /
the in-memory `sort((a,b) => b.createdAt - a.createdAt)`). -/
def insertRoomDesc (x : PgRoom) : List PgRoom → List PgRoom
  | [] => [x]
  | y :: rest =>
    if y.createdAt < x.createdAt then x :: y :: rest else y :: insertRoomDesc x rest

/-- Stable descending sort by `createdAt`. -/
def sortRoomsDesc (l : List PgRoom) : List PgRoom :=
  l.foldr insertRoomDesc []

/-- Stable descending insertion by `joinedAt` (`orderBy joinedAt desc`). -/
def insertPartDesc (x : PgParticipant) : List PgParticipant → List PgParticipant
  | [] => [x]
  | y :: rest =>
    if y.joinedAt < x.joinedAt then x :: y :: rest else y :: insertPartDesc x rest

/-- Stable descending sort by `joinedAt`. -/
def sortPartsDesc (l : List PgParticipant) : List PgParticipant :=
  l.foldr insertPartDesc []

/-- `roomStore.getUserRooms`: admin rooms plus participated non-admin
rooms, merged, sorted by creation time descending, paginated, then each
room annotated with its active-user count (member set minus admin). -/
def getUserRooms (userId : String) (lim off : Nat) (s : Sys) :
    Except Unit ((List RoomSummary × Nat) × Sys) :=
  if !s.pgUp then .error ()
  else
    let adminRooms := sortRoomsDesc (s.pg.rooms.filter (fun r => r.adminId == userId))
    let participated := sortPartsDesc (s.pg.participants.filter (fun p => p.userId == userId))
    let participantRoomIds := participated.map (fun p => p.roomId)
    let participantRooms := sortRoomsDesc (s.pg.rooms.filter
      (fun r => participantRoomIds.contains r.rid && r.adminId != userId))
    let allRooms := sortRoomsDesc (adminRooms ++ participantRooms)
    let paginated := (allRooms.drop off).take lim
    -- the pipelined SMEMBERS reads throw when the Fast Store is down
    if !s.fastUp then .error ()
    else
      let cards := paginated.map (fun r =>
        { id := r.rid, rname := r.rname, createdAt := r.createdAt, adminId := r.adminId,
          activeUsers := (((alookup s.fast.members r.rid).getD []).filter
            (fun i => i != r.adminId)).length : RoomSummary })
      .ok ((cards, allRooms.length), s)

/-! ## Helper lemmas about the store primitives -/

section Lemmas

variable {κ α : Type} [DecidableEq κ]

@[simp] theorem alookup_nil (k : κ) : alookup ([] : List (κ × α)) k = none := rfl

theorem alookup_cons (p : κ × α) (l : List (κ × α)) (k : κ) :
    alookup (p :: l) k = if p.1 = k then some p.2 else alookup l k := rfl

@[simp] theorem alookup_aset_self (l : List (κ × α)) (k : κ) (v : α) :
    alookup (aset l k v) k = some v := by
  induction l with
  | nil => simp [aset, alookup]
  | cons p rest ih =>
    by_cases h : p.1 = k
    · simp [aset, h, alookup]
    · simp [aset, h, alookup, ih]

theorem alookup_aset_ne (l : List (κ × α)) (k k' : κ) (v : α) (h : k' ≠ k) :
    alookup (aset l k v) k' = alookup l k' := by
  have h' : ¬k = k' := fun hh => h hh.symm
  induction l with
  | nil => simp [aset, alookup, h']
  | cons p rest ih =>
    by_cases hp : p.1 = k
    · simp [aset, hp, alookup, h']
    · simp [aset, hp, alookup, ih]

@[simp] theorem alookup_adel_self (l : List (κ × α)) (k : κ) :
    alookup (adel l k) k = none := by
  induction l with
  | nil => simp [adel]
  | cons p rest ih =>
    by_cases h : p.1 = k
    · simp [adel, h, ih]
    · simp [adel, h, alookup, ih]

theorem alookup_adel_ne (l : List (κ × α)) (k k' : κ) (h : k' ≠ k) :
    alookup (adel l k) k' = alookup l k' := by
  have h' : ¬k = k' := fun hh => h hh.symm
  induction l with
  | nil => simp [adel]
  | cons p rest ih =>
    by_cases hp : p.1 = k
    · simp [adel, hp, alookup, ih, h']
    · simp [adel, hp, alookup, ih]

/-- Looking up a key that a key-based filter removes yields nothing. -/
theorem alookup_filter_key (l : List (κ × α)) (q : κ → Bool) (k : κ)
    (hk : q k = false) : alookup (l.filter (fun p => q p.1)) k = none := by
  induction l with
  | nil => simp
  | cons p rest ih =>
    by_cases hq : q p.1
    · by_cases hpk : p.1 = k
      · rw [hpk] at hq; rw [hq] at hk; cases hk
      · simpa [List.filter, hq, alookup, hpk] using ih
    · simpa [List.filter, hq] using ih

/-- An element is never a member of the set it was just `SREM`-ed from. -/
theorem not_mem_sremL (l : List String) (x : String) : x ∉ sremL l x := by
  induction l with
  | nil => simp [sremL]
  | cons y rest ih =>
    by_cases h : y = x
    · simpa [sremL, h] using ih
    · have h' : ¬x = y := fun hh => h hh.symm
      simp [sremL, h, ih, h']

theorem mem_sremL_of_mem (l : List String) (x y : String) (hxy : y ≠ x)
    (hy : y ∈ l) : y ∈ sremL l x := by
  induction l with
  | nil => cases hy
  | cons z rest ih =>
    by_cases h : z = x
    · subst h
      rcases List.mem_cons.mp hy with h' | h'
      · exact absurd h' hxy
      · simpa [sremL] using ih h'
    · rcases List.mem_cons.mp hy with h' | h'
      · simp [sremL, h, h']
      · simp [sremL, h]
        exact Or.inr (by simpa using ih h')

end Lemmas

/-- `getRoom` touches only `fast.meta`: everything else is preserved, in
both success and not-found outcomes. -/
theorem getRoom_frame (roomId : String) (s : Sys) (r : Option RoomView) (s' : Sys)
    (h : getRoom roomId s = .ok (r, s')) :
    s'.fast.members = s.fast.members ∧ s'.fast.userData = s.fast.userData ∧
    s'.fast.votes = s.fast.votes ∧ s'.fast.sockets = s.fast.sockets ∧
    s'.pg = s.pg ∧ s'.fastUp = s.fastUp ∧ s'.pgUp = s.pgUp := by
  unfold getRoom at h
  by_cases hf : s.fastUp
  · simp [hf] at h
    cases hm : alookup s.fast.meta roomId with
    | some m =>
      simp [hm] at h
      obtain ⟨-, h2⟩ := h
      subst h2; simp_all
    | none =>
      simp [hm] at h
      by_cases hp : s.pgUp
      · simp [hp] at h
        cases hr : pgFindRoom s.pg roomId with
        | none => simp [hr] at h; obtain ⟨-, h2⟩ := h; subst h2; simp_all
        | some pgRoom =>
          simp [hr, hf] at h
          obtain ⟨-, h2⟩ := h
          subst h2; simp_all
      · simp [hp] at h
  · simp [hf] at h
    by_cases hp : s.pgUp
    · simp [hp] at h
      cases hr : pgFindRoom s.pg roomId with
      | none => simp [hr] at h; obtain ⟨-, h2⟩ := h; subst h2; simp_all
      | some pgRoom =>
        simp [hr, hf] at h
        obtain ⟨-, h2⟩ := h
        subst h2; simp_all
    · simp [hp] at h

/-- In the unrevealed case the assembled votes record can only carry the
viewer's own key, with a non-empty value. -/
theorem buildState_votes_unrevealed (meta : RoomView) (fu : String)
    (ids : List String) (ud : List (String × UserData)) (vm : List (String × String))
    (hrev : meta.revealed = false) :
    ∀ p ∈ (buildState meta (some fu) ids ud vm).votes,
      p.1 = fu ∧ ∃ v, p.2 = some v ∧ v ≠ "" := by
  intro p hp
  cases hvm : alookup vm fu with
  | none =>
    have hv : (buildState meta (some fu) ids ud vm).votes = [] := by
      simp [buildState, hrev, hvm]
    rw [hv] at hp; cases hp
  | some v =>
    by_cases hvv : v = ""
    · have hv : (buildState meta (some fu) ids ud vm).votes = [] := by
        simp [buildState, hrev, hvm, hvv]
      rw [hv] at hp; cases hp
    · have hv : (buildState meta (some fu) ids ud vm).votes = [(fu, some v)] := by
        simp [buildState, hrev, hvm, hvv]
      rw [hv] at hp
      rcases List.mem_singleton.mp hp with rfl
      exact ⟨rfl, v, rfl, hvv⟩

/-- C1: while the room is unrevealed, the state computed for viewer `U`
carries no other user's vote value: every entry of the votes record is
keyed by `U` (and holds a non-empty value), and members are exposed only
through the `users` list of `{id, name, hasVoted}` records. -/
theorem getRoomState_no_vote_leak (s s' : Sys) (R U : String) (rs : RoomState)
    (h : getRoomState R (some U) s = .ok (some rs, s'))
    (hrev : rs.revealed = false) :
    ∀ p ∈ rs.votes, p.1 = U ∧ ∃ v, p.2 = some v ∧ v ≠ "" := by
  unfold getRoomState at h
  cases hg : getRoom R s with
  | error e => rw [hg] at h; cases h
  | ok pr =>
    obtain ⟨r, s1⟩ := pr
    rw [hg] at h
    cases r with
    | none => simp at h
    | some meta =>
      by_cases hf : s1.fastUp
      · simp only [hf, Bool.not_true, Bool.false_eq_true, if_false] at h
        cases hl : loadRoomData R s1 with
        | error e => rw [hl] at h; cases h
        | ok out =>
          obtain ⟨⟨ids, ud, vm⟩, s2⟩ := out
          rw [hl] at h
          simp only [Except.ok.injEq, Prod.mk.injEq, Option.some.injEq] at h
          obtain ⟨h1, -⟩ := h
          subst h1
          have hm : meta.revealed = false := hrev
          exact buildState_votes_unrevealed meta U ids ud vm hm
      · simp [hf] at h

/-- A fully warm two-member room, viewer `u1`, both members voted,
unrevealed. -/
def leakState : Sys :=
  { fast :=
    { meta := [("R", { mid := "R", mname := "Sprint", adminId := "h1",
                       votingSystem := "fibonacci", revealPolicy := "everyone",
                       revealed := "false", createdAt := "0" })],
      members := [("R", ["u1", "u2"])],
      userData := [("R", [("u1", ⟨"u1", "Alice"⟩), ("u2", ⟨"u2", "Bob"⟩)])],
      votes := [("R", [("u1", "3"), ("u2", "5")])],
      sockets := [] },
    pg := { rooms := [⟨"R", "Sprint", "h1", "fibonacci", false, 0⟩],
            users := [⟨"u1", "Alice"⟩, ⟨"u2", "Bob"⟩],
            participants := [⟨"R", "u1", 0⟩, ⟨"R", "u2", 0⟩],
            votes := [⟨"R", "u1", "3"⟩, ⟨"R", "u2", "5"⟩] },
    fastUp := true, pgUp := true }

/-- The state `getRoomState("R", "u1")` computes on `leakState`: `u2`
appears with `hasVoted = true` but its vote value `"5"` is absent. -/
def leakRS : RoomState :=
  { id := "R", name := "Sprint", adminId := "h1", votingSystem := "fibonacci",
    revealPolicy := "everyone",
    users := [⟨"u1", "Alice", true⟩, ⟨"u2", "Bob", true⟩],
    votes := [("u1", some "3")], revealed := false }

/-- Witness for C1 at a concrete room: applied to the single entry of the
computed votes record. -/
theorem getRoomState_no_vote_leak_witness :
    ("u1", some "3").1 = "u1" ∧ ∃ v, ("u1", (some "3" : Option String)).2 = some v ∧ v ≠ "" :=
  getRoomState_no_vote_leak leakState leakState "R" "u1" leakRS rfl rfl
    ("u1", some "3") (by decide)

/-! ## More list lemmas -/

/-- `find?` never succeeds on a list from which the matching elements were
filtered out. -/
theorem find?_filter_not {α : Type} (l : List α) (q : α → Bool) :
    (l.filter (fun x => !q x)).find? q = none := by
  induction l with
  | nil => rfl
  | cons a rest ih =>
    by_cases h : q a
    · simp [List.filter_cons, h, ih]
    · simp [List.filter_cons, h, List.find?_cons, ih]

/-- Updating the matching elements in place commutes with `find?` when the
update preserves the predicate. -/
theorem find?_map_update {α : Type} (l : List α) (q : α → Bool) (f : α → α)
    (hq : ∀ w, q w = true → q (f w) = true) (h : (l.find? q).isSome) :
    (l.map (fun w => if q w then f w else w)).find? q = (l.find? q).map f := by
  induction l with
  | nil => cases h
  | cons a rest ih =>
    by_cases ha : q a
    · simp [List.find?_cons, ha, hq a ha]
    · simp only [List.find?_cons_of_neg _ ha] at h
      simp [List.find?_cons, ha, ih h]

/-- Filtering for a key after filtering that key away yields nothing. -/
theorem filter_bne_beq {α : Type} (l : List α) (key : α → String) (R : String) :
    ((l.filter (fun v => key v != R)).filter (fun v => key v == R)) = [] := by
  induction l with
  | nil => rfl
  | cons a rest ih =>
    by_cases h : key a = R <;> simp [List.filter_cons, h, ih]

/-- Appending a matching element to a miss makes `find?` return it. -/
theorem find?_append_single {α : Type} (l : List α) (q : α → Bool) (x : α)
    (hl : l.find? q = none) (hx : q x = true) : (l ++ [x]).find? q = some x := by
  induction l with
  | nil => simp [List.find?_cons, hx]
  | cons a rest ih =>
    by_cases ha : q a
    · simp [List.find?_cons, ha] at hl
    · simp only [List.find?_cons_of_neg _ ha] at hl
      simp [List.find?_cons, ha, ih hl]

/-! ## Inversion lemmas for the mutating operations -/

/-- Everything `resetVotes` did, recovered from a successful call. -/
theorem resetVotes_ok (R : String) (s s' : Sys) (h : resetVotes R s = .ok (true, s')) :
    ∃ m r0, s.fastUp = true ∧ s.pgUp = true ∧ alookup s.fast.meta R = some m ∧
      pgFindRoom s.pg R = some r0 ∧
      s' = { s with
        fast := { s.fast with
          meta := aset s.fast.meta R { m with revealed := "false" },
          votes := adel s.fast.votes R },
        pg := { s.pg with
          rooms := s.pg.rooms.map (fun r => if r.rid == R then { r with revealed := false } else r),
          votes := s.pg.votes.filter (fun v => v.roomId != R) } } := by
  unfold resetVotes pgUpdateRoom at h
  by_cases hf : s.fastUp
  · rw [hf] at h
    simp only [Bool.not_true, Bool.false_eq_true, if_false] at h
    cases hm : alookup s.fast.meta R with
    | none => rw [hm] at h; simp at h
    | some m =>
      rw [hm] at h
      by_cases hp : s.pgUp
      · simp only [hp, Bool.not_true, Bool.false_eq_true, if_false] at h
        cases hr : pgFindRoom s.pg R with
        | none => simp [hr] at h
        | some r0 =>
          simp only [hr, Option.isNone_some, Bool.false_eq_true, if_false] at h
          simp only [Except.ok.injEq, Prod.mk.injEq, true_and] at h
          subst h
          refine ⟨m, r0, hf, hp, rfl, rfl, ?_⟩
          simp [hf, hp]
      · simp [hp] at h
  · simp [hf] at h

/-- `loadRoomData` cannot throw while the Durable Store is reachable. -/
theorem loadRoomData_not_error (R : String) (s : Sys) (hp : s.pgUp = true) :
    loadRoomData R s ≠ .error () := by
  intro h
  unfold loadRoomData at h
  simp only [] at h
  repeat' split at h
  all_goals simp_all

/-- If the room's Fast-Store vote hash is gone and no durable vote rows
remain, `loadRoomData` reports an empty vote map. -/
theorem loadRoomData_votes_empty (R : String) (s : Sys)
    (ids : List String) (ud : List (String × UserData)) (vm : List (String × String)) (s2 : Sys)
    (h : loadRoomData R s = .ok ((ids, ud, vm), s2))
    (hvotes : alookup s.fast.votes R = none)
    (hpgv : s.pg.votes.filter (fun v => v.roomId == R) = []) :
    vm = [] := by
  unfold loadRoomData at h
  rw [show hgetallH s.fast.votes R = [] by simp [hgetallH, hvotes]] at h
  rw [hpgv] at h
  simp only [List.foldl_nil] at h
  repeat' split at h
  all_goals simp_all

/-- In the unrevealed case with an empty vote map, the assembled votes
record is empty. -/
theorem buildState_votes_empty (meta : RoomView) (viewer : Option String)
    (ids : List String) (ud : List (String × UserData)) (hrev : meta.revealed = false) :
    (buildState meta viewer ids ud []).votes = [] := by
  cases viewer <;> simp [buildState, hrev, alookup]

/-- With an empty vote map every assembled member has `hasVoted = false`. -/
theorem buildState_hasVoted_false (meta : RoomView) (viewer : Option String)
    (ids : List String) (ud : List (String × UserData)) :
    ∀ u ∈ (buildState meta viewer ids ud []).users, u.hasVoted = false := by
  intro u hu
  rcases List.mem_map.mp hu with ⟨id, -, rfl⟩
  simp [mkMember, truthy, alookup]

/-- On a state whose room meta says `revealed:'false'`, whose Fast-Store
vote hash for the room is gone and whose durable vote rows for the room
are gone, `getRoomState` succeeds and reports `revealed=false`, no votes,
and every member `hasVoted=false`. -/
theorem getRoomState_votes_cleared (s' : Sys) (R : String) (viewer : Option String)
    (m : MetaHash) (hf : s'.fastUp = true) (hp : s'.pgUp = true)
    (hmeta : alookup s'.fast.meta R = some m) (hrev : m.revealed = "false")
    (hvotes : alookup s'.fast.votes R = none)
    (hpgv : s'.pg.votes.filter (fun v => v.roomId == R) = []) :
    getRoomState R viewer s' ≠ .error () ∧
    ∀ rsOpt s'', getRoomState R viewer s' = .ok (rsOpt, s'') →
      ∃ rs, rsOpt = some rs ∧ rs.revealed = false ∧ rs.votes = [] ∧
        ∀ u ∈ rs.users, u.hasVoted = false := by
  have hg : getRoom R s' = .ok (some (metaToView m), s') := by
    simp [getRoom, hf, hmeta]
  have hmv : (metaToView m).revealed = false := by
    simp [metaToView, hrev]
  constructor
  · intro hx
    unfold getRoomState at hx
    rw [hg] at hx
    simp only [hf, Bool.not_true, Bool.false_eq_true, if_false] at hx
    cases hl : loadRoomData R s' with
    | error e => cases e; exact loadRoomData_not_error R s' hp hl
    | ok out =>
      obtain ⟨⟨ids, ud, vm⟩, s2⟩ := out
      rw [hl] at hx
      cases hx
  · intro rsOpt s'' hx
    unfold getRoomState at hx
    rw [hg] at hx
    simp only [hf, Bool.not_true, Bool.false_eq_true, if_false] at hx
    cases hl : loadRoomData R s' with
    | error e => rw [hl] at hx; cases hx
    | ok out =>
      obtain ⟨⟨ids, ud, vm⟩, s2⟩ := out
      have hvm : vm = [] := loadRoomData_votes_empty R s' ids ud vm s2 hl hvotes hpgv
      subst hvm
      rw [hl] at hx
      simp only [Except.ok.injEq, Prod.mk.injEq] at hx
      obtain ⟨h1, -⟩ := hx
      exact ⟨buildState (metaToView m) viewer ids ud [], h1.symm,
        hmv, buildState_votes_empty _ _ _ _ hmv, buildState_hasVoted_false _ _ _ _⟩

/-- C5: after a successful `resetVotes(R)`, the Fast Store shows
`revealed:'false'` and no vote hash, the Durable Store shows
`revealed=false` and no vote rows, and any `getRoomState(R, viewer)`
computed on the resulting state succeeds with `revealed=false`, an empty
votes record and every member `hasVoted=false`. -/
theorem resetVotes_spec (s s' : Sys) (R : String) (viewer : Option String)
    (h : resetVotes R s = .ok (true, s')) :
    ((alookup s'.fast.meta R).map MetaHash.revealed = some "false") ∧
    alookup s'.fast.votes R = none ∧
    ((pgFindRoom s'.pg R).map PgRoom.revealed = some false) ∧
    (s'.pg.votes.filter (fun v => v.roomId == R) = []) ∧
    getRoomState R viewer s' ≠ .error () ∧
    (∀ rsOpt s'', getRoomState R viewer s' = .ok (rsOpt, s'') →
      ∃ rs, rsOpt = some rs ∧ rs.revealed = false ∧ rs.votes = [] ∧
        ∀ u ∈ rs.users, u.hasVoted = false) := by
  obtain ⟨m, r0, hf, hp, hm, hr, hs'⟩ := resetVotes_ok R s s' h
  subst hs'
  have hmeta : alookup
      (aset s.fast.meta R { m with revealed := "false" }) R =
      some { m with revealed := "false" } := alookup_aset_self _ _ _
  have hvotes : alookup (adel s.fast.votes R) R = none := alookup_adel_self _ _
  have hpgrev : (pgFindRoom
      { s.pg with
        rooms := s.pg.rooms.map (fun r => if r.rid == R then { r with revealed := false } else r),
        votes := s.pg.votes.filter (fun v => v.roomId != R) } R).map PgRoom.revealed
      = some false := by
    unfold pgFindRoom
    rw [find?_map_update s.pg.rooms (fun r => r.rid == R)
      (fun r => { r with revealed := false }) (fun w hw => hw)
      (by rw [show s.pg.rooms.find? (fun r => r.rid == R) = some r0 from hr]; rfl)]
    rw [show s.pg.rooms.find? (fun r => r.rid == R) = some r0 from hr]
    rfl
  have hpgv : ((s.pg.votes.filter (fun v => v.roomId != R)).filter
      (fun v => v.roomId == R)) = [] := filter_bne_beq _ _ _
  obtain ⟨hne, hinv⟩ := getRoomState_votes_cleared
    { s with
      fast := { s.fast with
        meta := aset s.fast.meta R { m with revealed := "false" },
        votes := adel s.fast.votes R },
      pg := { s.pg with
        rooms := s.pg.rooms.map (fun r => if r.rid == R then { r with revealed := false } else r),
        votes := s.pg.votes.filter (fun v => v.roomId != R) } }
    R viewer { m with revealed := "false" } hf hp hmeta rfl hvotes hpgv
  exact ⟨by simp [hmeta], hvotes, hpgrev, hpgv, hne, hinv⟩

/-- A revealed one-member room, warm in both stores, with one vote. -/
def c5State : Sys :=
  { fast :=
    { meta := [("R", { mid := "R", mname := "Sprint", adminId := "h1",
                       votingSystem := "fibonacci", revealPolicy := "everyone",
                       revealed := "true", createdAt := "0" })],
      members := [("R", ["u1"])],
      userData := [("R", [("u1", ⟨"u1", "Alice"⟩)])],
      votes := [("R", [("u1", "3")])],
      sockets := [] },
    pg := { rooms := [⟨"R", "Sprint", "h1", "fibonacci", true, 0⟩],
            users := [⟨"u1", "Alice"⟩],
            participants := [⟨"R", "u1", 0⟩],
            votes := [⟨"R", "u1", "3"⟩] },
    fastUp := true, pgUp := true }

/-- `c5State` after `resetVotes("R")`. -/
def c5State' : Sys :=
  { fast :=
    { meta := [("R", { mid := "R", mname := "Sprint", adminId := "h1",
                       votingSystem := "fibonacci", revealPolicy := "everyone",
                       revealed := "false", createdAt := "0" })],
      members := [("R", ["u1"])],
      userData := [("R", [("u1", ⟨"u1", "Alice"⟩)])],
      votes := [],
      sockets := [] },
    pg := { rooms := [⟨"R", "Sprint", "h1", "fibonacci", false, 0⟩],
            users := [⟨"u1", "Alice"⟩],
            participants := [⟨"R", "u1", 0⟩],
            votes := [] },
    fastUp := true, pgUp := true }

/-- Witness for C5 at a concrete room. -/
theorem resetVotes_spec_witness :
    ((alookup c5State'.fast.meta "R").map MetaHash.revealed = some "false") ∧
    alookup c5State'.fast.votes "R" = none ∧
    ((pgFindRoom c5State'.pg "R").map PgRoom.revealed = some false) ∧
    (c5State'.pg.votes.filter (fun v => v.roomId == "R") = []) ∧
    getRoomState "R" (some "u1") c5State' ≠ .error () ∧
    (∀ rsOpt s'', getRoomState "R" (some "u1") c5State' = .ok (rsOpt, s'') →
      ∃ rs, rsOpt = some rs ∧ rs.revealed = false ∧ rs.votes = [] ∧
        ∀ u ∈ rs.users, u.hasVoted = false) :=
  resetVotes_spec c5State c5State' "R" (some "u1") rfl

/-- C2 (amended): once `resetVotes(R)` has completed, the deferred
countdown phase is not a no-op — its exists-and-not-revealed guard passes
(the reset left the room unrevealed), so it performs the reveal and the
room ends with `revealed=true` in both stores. -/
theorem revealVotes_ok_of (R : String) (s : Sys) (m : MetaHash) (r0 : PgRoom)
    (hf : s.fastUp = true) (hp : s.pgUp = true)
    (hm : alookup s.fast.meta R = some m)
    (hr : s.pg.rooms.find? (fun r => r.rid == R) = some r0) :
    revealVotes R s = .ok (true, { s with
      fast := { s.fast with meta := aset s.fast.meta R { m with revealed := "true" } },
      pg := { s.pg with rooms := (s.pg.rooms.map
        (fun r => if r.rid == R then { r with revealed := true } else r)) } }) := by
  unfold revealVotes pgUpdateRoom
  rw [hm]
  simp [pgFindRoom, hf, hp, hr]

theorem revealPhase2_after_reset (s s1 : Sys) (R : String)
    (hreset : resetVotes R s = .ok (true, s1)) :
    ∃ s2, revealPhase2 R s1 = .ok s2 ∧
      (alookup s2.fast.meta R).map MetaHash.revealed = some "true" ∧
      (pgFindRoom s2.pg R).map PgRoom.revealed = some true := by
  obtain ⟨m, r0, hf, hp, hm, hr, hs1⟩ := resetVotes_ok R s s1 hreset
  have hf1 : s1.fastUp = true := by rw [hs1]; exact hf
  have hp1 : s1.pgUp = true := by rw [hs1]; exact hp
  have hm1 : alookup s1.fast.meta R = some { m with revealed := "false" } := by
    rw [hs1]; exact alookup_aset_self _ _ _
  have hr1 : s1.pg.rooms.find? (fun r => r.rid == R) = some { r0 with revealed := false } := by
    rw [hs1]
    show (s.pg.rooms.map
      (fun r => if r.rid == R then { r with revealed := false } else r)).find?
      (fun r => r.rid == R) = some { r0 with revealed := false }
    rw [find?_map_update s.pg.rooms (fun r => r.rid == R)
      (fun r => { r with revealed := false }) (fun w hw => hw)
      (by rw [show s.pg.rooms.find? (fun r => r.rid == R) = some r0 from hr]; rfl)]
    rw [show s.pg.rooms.find? (fun r => r.rid == R) = some r0 from hr]; rfl
  have hgr : getRoom R s1 = .ok (some (metaToView { m with revealed := "false" }), s1) := by
    simp [getRoom, hf1, hm1]
  have hrv := revealVotes_ok_of R s1 { m with revealed := "false" }
    { r0 with revealed := false } hf1 hp1 hm1 hr1
  have hr2 : (s1.pg.rooms.map
      (fun r => if r.rid == R then { r with revealed := true } else r)).find?
      (fun r => r.rid == R) = some { r0 with revealed := true } := by
    rw [find?_map_update s1.pg.rooms (fun r => r.rid == R)
      (fun r => { r with revealed := true }) (fun w hw => hw)
      (by rw [hr1]; rfl)]
    rw [hr1]; rfl
  refine ⟨{ s1 with
      fast := { s1.fast with
        meta := aset s1.fast.meta R { m with revealed := "true" } },
      pg := { s1.pg with rooms := (s1.pg.rooms.map
        (fun r => if r.rid == R then { r with revealed := true } else r)) } }, ?_, ?_, ?_⟩
  · unfold revealPhase2
    rw [hgr]
    simp only [metaToView]
    rw [if_neg (by simp)]
    rw [hrv]
  · simp [alookup_aset_self]
  · unfold pgFindRoom
    simp only []
    rw [hr2]
    rfl

/-- Countdown-reset race at a concrete room: the state on which reveal was
invoked mid-countdown and `resetVotes` completed (unrevealed in both
stores). -/
def raceState : Sys :=
  { fast :=
    { meta := [("R", { mid := "R", mname := "Sprint", adminId := "h1",
                       votingSystem := "fibonacci", revealPolicy := "everyone",
                       revealed := "false", createdAt := "0" })],
      members := [], userData := [], votes := [], sockets := [] },
    pg := { rooms := [⟨"R", "Sprint", "h1", "fibonacci", false, 0⟩],
            users := [], participants := [], votes := [] },
    fastUp := true, pgUp := true }

/-- `raceState` after the deferred phase fires: revealed in both stores. -/
def raceRevealedState : Sys :=
  { fast :=
    { meta := [("R", { mid := "R", mname := "Sprint", adminId := "h1",
                       votingSystem := "fibonacci", revealPolicy := "everyone",
                       revealed := "true", createdAt := "0" })],
      members := [], userData := [], votes := [], sockets := [] },
    pg := { rooms := [⟨"R", "Sprint", "h1", "fibonacci", true, 0⟩],
            users := [], participants := [], votes := [] },
    fastUp := true, pgUp := true }

/-- C2 counterexample: `resetVotes("R")` completes (leaving the room
unrevealed), then the deferred phase fires — it is not a no-op: it flips
`revealed` to true in both stores, so the room does not remain
`revealed=false`. -/
theorem countdown_reset_race_cex :
    resetVotes "R" raceState = .ok (true, raceState) ∧
    revealPhase2 "R" raceState = .ok raceRevealedState ∧
    (alookup raceRevealedState.fast.meta "R").map MetaHash.revealed = some "true" ∧
    (pgFindRoom raceRevealedState.pg "R").map PgRoom.revealed = some true ∧
    raceRevealedState ≠ raceState :=
  ⟨rfl, rfl, rfl, rfl, by decide⟩

/-- Witness for the amended C2 at a concrete room. -/
theorem revealPhase2_after_reset_witness :
    ∃ s2, revealPhase2 "R" raceState = .ok s2 ∧
      (alookup s2.fast.meta "R").map MetaHash.revealed = some "true" ∧
      (pgFindRoom s2.pg "R").map PgRoom.revealed = some true :=
  revealPhase2_after_reset raceState raceState "R" rfl

/-- C6: while the Durable Store is reachable, `getRoom` never throws — a
Fast Store failure alone never fails the read — and it reports not-found
(returning the state unchanged) exactly when the room is absent from the
Durable Store and the Fast Store either is down or has no meta for it. -/
theorem getRoom_spec (s : Sys) (R : String) (hp : s.pgUp = true) :
    getRoom R s ≠ .error () ∧
    (getRoom R s = .ok (none, s) ↔
      (pgFindRoom s.pg R = none ∧
        (s.fastUp = false ∨ alookup s.fast.meta R = none))) := by
  unfold getRoom
  by_cases hf : s.fastUp
  · cases hm : alookup s.fast.meta R with
    | some m => simp [hf, hm]
    | none =>
      cases hr : pgFindRoom s.pg R with
      | none => simp [hf, hm, hp, hr]
      | some pgRoom => simp [hf, hm, hp, hr]
  · cases hr : pgFindRoom s.pg R with
    | none => simp [hf, hp, hr]
    | some pgRoom => simp [hf, hp, hr]

/-- A room known only durably, with the Fast Store down. -/
def c6State : Sys :=
  { fast := { meta := [], members := [], userData := [], votes := [], sockets := [] },
    pg := { rooms := [⟨"R", "Sprint", "h1", "fibonacci", false, 0⟩],
            users := [], participants := [], votes := [] },
    fastUp := false, pgUp := true }

/-- Witness for C6 at a concrete state with the Fast Store down. -/
theorem getRoom_spec_witness :
    getRoom "R" c6State ≠ .error () ∧
    (getRoom "R" c6State = .ok (none, c6State) ↔
      (pgFindRoom c6State.pg "R" = none ∧
        (c6State.fastUp = false ∨ alookup c6State.fast.meta "R" = none))) :=
  getRoom_spec c6State "R" rfl

/-- `removeUser` on a room whose meta is warm in the Fast Store. -/
theorem removeUser_ok (R U : String) (s : Sys) (m : MetaHash)
    (hf : s.fastUp = true) (hm : alookup s.fast.meta R = some m) :
    removeUser R U s = .ok (true, { s with fast := { s.fast with
      members := aset s.fast.members R
        (sremL ((alookup s.fast.members R).getD []) U),
      sockets := adel s.fast.sockets (R, U) } }) := by
  unfold removeUser getRoom
  simp [hf, hm]

/-- C9: with exactly the connections `c1, c2` bound for user `U` in room
`R`, removing `c1` reports "not fully left" and retains membership; the
subsequent removal of `c2` reports "fully left", and `U`'s membership in
`R` is removed. -/
theorem removeSocketFromUser_two_conns (s : Sys) (R U c1 c2 : String) (m : MetaHash)
    (hf : s.fastUp = true)
    (hmeta : alookup s.fast.meta R = some m)
    (hsock : alookup s.fast.sockets (R, U) = some [c1, c2])
    (hne : c1 ≠ c2)
    (hmem : U ∈ (alookup s.fast.members R).getD []) :
    ∃ s1, removeSocketFromUser R U c1 s = .ok (false, s1) ∧
      U ∈ (alookup s1.fast.members R).getD [] ∧
      alookup s1.fast.sockets (R, U) = some [c2] ∧
      ∃ s2, removeSocketFromUser R U c2 s1 = .ok (true, s2) ∧
        U ∉ (alookup s2.fast.members R).getD [] := by
  have h21 : ¬c2 = c1 := fun hh => hne hh.symm
  have hset1 : sremL [c1, c2] c1 = [c2] := by simp [sremL, h21]
  refine ⟨{ s with fast := { s.fast with
      sockets := aset s.fast.sockets (R, U) [c2] } }, ?_, ?_, ?_, ?_⟩
  · unfold removeSocketFromUser
    rw [hsock]
    simp [hf, hset1]
  · exact hmem
  · exact alookup_aset_self _ _ _
  · have hsock1 : alookup (aset s.fast.sockets (R, U) [c2]) (R, U) = some [c2] :=
      alookup_aset_self _ _ _
    refine ⟨{ s with fast := { s.fast with
        members := aset s.fast.members R
          (sremL ((alookup s.fast.members R).getD []) U),
        sockets := adel (aset (aset s.fast.sockets (R, U) [c2]) (R, U) []) (R, U) } },
      ?_, ?_⟩
    · unfold removeSocketFromUser
      simp only [hf, Bool.not_true, Bool.false_eq_true, if_false]
      rw [hsock1]
      simp only [Option.getD_some]
      rw [show sremL [c2] c2 = [] from by simp [sremL]]
      rw [if_neg (by simp)]
      exact removeUser_ok R U _ m rfl hmeta
    · intro hmm
      simp only [alookup_aset_self, Option.getD_some] at hmm
      exact not_mem_sremL _ U hmm

/-- A one-member room where `u1` is bound via two connections. -/
def c9Meta : MetaHash :=
  { mid := "R", mname := "Sprint", adminId := "h1", votingSystem := "fibonacci",
    revealPolicy := "everyone", revealed := "false", createdAt := "0" }

def c9State : Sys :=
  { fast := { meta := [("R", c9Meta)],
              members := [("R", ["u1"])],
              userData := [("R", [("u1", ⟨"u1", "Alice"⟩)])],
              votes := [],
              sockets := [(("R", "u1"), ["s1", "s2"])] },
    pg := { rooms := [⟨"R", "Sprint", "h1", "fibonacci", false, 0⟩],
            users := [⟨"u1", "Alice"⟩], participants := [⟨"R", "u1", 0⟩], votes := [] },
    fastUp := true, pgUp := true }

/-- Witness for C9 at a concrete room. -/
theorem removeSocketFromUser_two_conns_witness :
    ∃ s1, removeSocketFromUser "R" "u1" "s1" c9State = .ok (false, s1) ∧
      "u1" ∈ (alookup s1.fast.members "R").getD [] ∧
      alookup s1.fast.sockets ("R", "u1") = some ["s2"] ∧
      ∃ s2, removeSocketFromUser "R" "u1" "s2" s1 = .ok (true, s2) ∧
        "u1" ∉ (alookup s2.fast.members "R").getD [] :=
  removeSocketFromUser_two_conns c9State "R" "u1" "s1" "s2" c9Meta rfl rfl rfl
    (by decide) (by decide)

/-! ## `castVote` (C4) -/

/-- After `HDEL`, the (key, field) entry is gone. -/
theorem hdelF_self {α : Type} (l : List (String × List (String × α))) (k f : String) :
    alookup (hgetallH (hdelF l k f) k) f = none := by
  cases h : alookup l k with
  | none => simp [hdelF, h, hgetallH]
  | some hsh => simp [hdelF, h, hgetallH, alookup_aset_self]

/-- After `HSET`, the (key, field) entry holds the value. -/
theorem hsetF_self {α : Type} (l : List (String × List (String × α))) (k f : String) (v : α) :
    alookup (hgetallH (hsetF l k f v) k) f = some v := by
  simp [hsetF, hgetallH, alookup_aset_self]

/-- C4: `castVote` rejects (with no state change) when the room is unknown
in both stores; rejects (changing no vote state) when the room is
revealed; otherwise an empty value deletes the (room, user) vote record in
both stores and a non-empty value upserts it in both stores. -/
theorem castVote_spec (s : Sys) (R U v : String)
    (hf : s.fastUp = true) (hp : s.pgUp = true) :
    ((alookup s.fast.meta R = none ∧ pgFindRoom s.pg R = none) →
        castVote R U v s = .ok (false, s)) ∧
    (∀ r s1, getRoom R s = .ok (some r, s1) → r.revealed = true →
        castVote R U v s = .ok (false, s1) ∧
        s1.fast.votes = s.fast.votes ∧ s1.pg.votes = s.pg.votes) ∧
    (∀ r s1, getRoom R s = .ok (some r, s1) → r.revealed = false → v = "" →
        ∃ s2, castVote R U v s = .ok (true, s2) ∧
          alookup (hgetallH s2.fast.votes R) U = none ∧
          s2.pg.votes.find? (fun w => w.roomId == R && w.userId == U) = none) ∧
    (∀ r s1, getRoom R s = .ok (some r, s1) → r.revealed = false → v ≠ "" →
        ∃ s2, castVote R U v s = .ok (true, s2) ∧
          alookup (hgetallH s2.fast.votes R) U = some v ∧
          (s2.pg.votes.find? (fun w => w.roomId == R && w.userId == U)).map
            PgVote.value = some v) := by
  refine ⟨?_, ?_, ?_, ?_⟩
  · rintro ⟨hm, hr⟩
    unfold castVote getRoom
    simp [hf, hm, hp, hr]
  · intro r s1 hg hrev
    obtain ⟨-, -, hv, -, hpg, -, -⟩ := getRoom_frame R s (some r) s1 hg
    refine ⟨?_, hv, by rw [hpg]⟩
    unfold castVote
    rw [hg]
    simp [hrev]
  · intro r s1 hg hrev hv
    subst hv
    obtain ⟨-, -, -, -, -, hfu, hpu⟩ := getRoom_frame R s (some r) s1 hg
    refine ⟨{ s1 with
        fast := { s1.fast with votes := hdelF s1.fast.votes R U },
        pg := { s1.pg with votes := (s1.pg.votes.filter
          (fun w => !(w.roomId == R && w.userId == U))) } }, ?_, ?_, ?_⟩
    · unfold castVote
      rw [hg]
      simp [hrev, hfu, hf, hpu, hp]
    · exact hdelF_self _ _ _
    · exact find?_filter_not _ _
  · intro r s1 hg hrev hv
    obtain ⟨-, -, -, -, -, hfu, hpu⟩ := getRoom_frame R s (some r) s1 hg
    refine ⟨{ s1 with
        fast := { s1.fast with votes := hsetF s1.fast.votes R U v },
        pg := { s1.pg with votes :=
          (if (s1.pg.votes.find? (fun w => w.roomId == R && w.userId == U)).isSome
          then s1.pg.votes.map (fun w =>
            if w.roomId == R && w.userId == U then { w with value := v } else w)
          else s1.pg.votes ++ [⟨R, U, v⟩]) } }, ?_, ?_, ?_⟩
    · unfold castVote
      rw [hg]
      simp [hrev, hv, hfu, hf, hpu, hp]
    · exact hsetF_self _ _ _ _
    · cases hfind : s1.pg.votes.find? (fun w => w.roomId == R && w.userId == U) with
      | some w0 =>
        simp only [hfind, Option.isSome_some, if_true]
        rw [find?_map_update s1.pg.votes (fun w => w.roomId == R && w.userId == U)
          (fun w => { w with value := v }) (fun w hw => hw) (by rw [hfind]; rfl)]
        rw [hfind]
        rfl
      | none =>
        simp only [hfind, Option.isSome_none, Bool.false_eq_true, if_false]
        rw [find?_append_single s1.pg.votes _ ⟨R, U, v⟩ hfind (by simp)]
        rfl

/-- A warm unrevealed room with no vote yet by `u1`. -/
def c4Meta : MetaHash :=
  { mid := "R", mname := "Sprint", adminId := "h1", votingSystem := "fibonacci",
    revealPolicy := "everyone", revealed := "false", createdAt := "0" }

def c4State : Sys :=
  { fast := { meta := [("R", c4Meta)],
              members := [("R", ["u1"])],
              userData := [("R", [("u1", ⟨"u1", "Alice"⟩)])],
              votes := [], sockets := [] },
    pg := { rooms := [⟨"R", "Sprint", "h1", "fibonacci", false, 0⟩],
            users := [⟨"u1", "Alice"⟩], participants := [⟨"R", "u1", 0⟩], votes := [] },
    fastUp := true, pgUp := true }

/-- Witness for C4: a non-empty vote lands in both stores. -/
theorem castVote_spec_witness :
    ∃ s2, castVote "R" "u1" "5" c4State = .ok (true, s2) ∧
      alookup (hgetallH s2.fast.votes "R") "u1" = some "5" ∧
      (s2.pg.votes.find? (fun w => w.roomId == "R" && w.userId == "u1")).map
        PgVote.value = some "5" :=
  (castVote_spec c4State "R" "u1" "5" rfl rfl).2.2.2 (metaToView c4Meta) c4State
    rfl rfl (by decide)

/-! ## `updateSettings` (C7) -/

/-- `find?` by one key is unaffected by an in-place update keyed to a
different id. -/
theorem find?_map_if_ne (l : List PgRoom) (R k : String) (g : PgRoom → PgRoom)
    (hg : ∀ r, (g r).rid = r.rid) (hk : k ≠ R) :
    (l.map (fun r => if r.rid == R then g r else r)).find? (fun r => r.rid == k)
      = l.find? (fun r => r.rid == k) := by
  induction l with
  | nil => rfl
  | cons a rest ih =>
    rw [List.map_cons]
    by_cases ha : a.rid = R
    · rw [show (if a.rid == R then g a else a) = g a by simp [ha]]
      rw [List.find?_cons_of_neg _ (by simp [hg a, ha, Ne.symm hk])]
      rw [List.find?_cons_of_neg _ (by simp [ha, Ne.symm hk])]
      exact ih
    · rw [show (if a.rid == R then g a else a) = a by simp [ha]]
      by_cases hak : a.rid = k
      · rw [List.find?_cons_of_pos _ (by simp [hak]),
          List.find?_cons_of_pos _ (by simp [hak])]
      · rw [List.find?_cons_of_neg _ (by simp [hak]),
          List.find?_cons_of_neg _ (by simp [hak])]
        exact ih

/-- Full characterization of one `settingsStep`. -/
theorem settingsStep_ok (R : String) (s : Sys) (m : MetaHash) (r0 : PgRoom)
    (o : Option String) (f : String → MetaHash → MetaHash) (g : String → PgRoom → PgRoom)
    (hgrid : ∀ n r, (g n r).rid = r.rid)
    (hfu : s.fastUp = true) (hp : s.pgUp = true)
    (hm : alookup s.fast.meta R = some m) (hr : pgFindRoom s.pg R = some r0) :
    ∃ s1, settingsStep R o f g s = .ok s1 ∧
      s1.fastUp = true ∧ s1.pgUp = true ∧
      alookup s1.fast.meta R = some (o.elim m (fun n => f n m)) ∧
      (∀ k, k ≠ R → alookup s1.fast.meta k = alookup s.fast.meta k) ∧
      pgFindRoom s1.pg R = some (o.elim r0 (fun n => g n r0)) ∧
      (∀ k, k ≠ R → pgFindRoom s1.pg k = pgFindRoom s.pg k) ∧
      s1.fast.members = s.fast.members ∧ s1.fast.userData = s.fast.userData ∧
      s1.fast.votes = s.fast.votes ∧ s1.fast.sockets = s.fast.sockets ∧
      s1.pg.users = s.pg.users ∧ s1.pg.participants = s.pg.participants ∧
      s1.pg.votes = s.pg.votes := by
  cases o with
  | none =>
    exact ⟨s, rfl, hfu, hp, hm, fun k _ => rfl, hr, fun k _ => rfl,
      rfl, rfl, rfl, rfl, rfl, rfl, rfl⟩
  | some n =>
    have hstep : settingsStep R (some n) f g s = .ok { s with
        fast := { s.fast with meta := aset s.fast.meta R (f n m) },
        pg := { s.pg with rooms := (s.pg.rooms.map
          (fun r => if r.rid == R then g n r else r)) } } := by
      unfold settingsStep pgUpdateRoom modifyMeta
      rw [hm]
      simp [hfu, hp, hr]
    have hfind : (s.pg.rooms.map
        (fun r => if r.rid == R then g n r else r)).find? (fun r => r.rid == R)
        = some (g n r0) := by
      rw [find?_map_update s.pg.rooms (fun r => r.rid == R) (g n)
        (fun w hw => by
          have : (g n w).rid = w.rid := hgrid n w
          simpa [this] using hw)
        (by rw [show s.pg.rooms.find? (fun r => r.rid == R) = some r0 from hr]; rfl)]
      rw [show s.pg.rooms.find? (fun r => r.rid == R) = some r0 from hr]
      rfl
    refine ⟨_, hstep, hfu, hp, ?_, ?_, ?_, ?_, rfl, rfl, rfl, rfl, rfl, rfl, rfl⟩
    · exact alookup_aset_self _ _ _
    · intro k hk
      exact alookup_aset_ne _ _ _ _ hk
    · exact hfind
    · intro k hk
      exact find?_map_if_ne s.pg.rooms R k (g n) (hgrid n) hk

/-- C7 (amended): `updateSettings` writes exactly the supplied `name`,
`votingSystem` (both stores) and `revealPolicy` (Fast Store only) fields;
a supplied `countdownEnabled` is ignored entirely — it is written to
neither store — and every unsupplied field and all other state is left
unchanged in both stores. -/
theorem updateSettings_spec (s : Sys) (R : String) (u : UpdateSettingsPayload)
    (m : MetaHash) (r0 : PgRoom)
    (hf : s.fastUp = true) (hp : s.pgUp = true)
    (hm : alookup s.fast.meta R = some m)
    (hr : pgFindRoom s.pg R = some r0) :
    ∃ s', updateSettings R u s = .ok (true, s') ∧
      alookup s'.fast.meta R = some { m with
        mname := u.name.getD m.mname,
        votingSystem := u.votingSystem.getD m.votingSystem,
        revealPolicy := u.revealPolicy.getD m.revealPolicy } ∧
      (∀ k, k ≠ R → alookup s'.fast.meta k = alookup s.fast.meta k) ∧
      pgFindRoom s'.pg R = some { r0 with
        rname := u.name.getD r0.rname,
        votingSystem := u.votingSystem.getD r0.votingSystem } ∧
      (∀ k, k ≠ R → pgFindRoom s'.pg k = pgFindRoom s.pg k) ∧
      s'.fast.members = s.fast.members ∧ s'.fast.userData = s.fast.userData ∧
      s'.fast.votes = s.fast.votes ∧ s'.fast.sockets = s.fast.sockets ∧
      s'.pg.users = s.pg.users ∧ s'.pg.participants = s.pg.participants ∧
      s'.pg.votes = s.pg.votes := by
  obtain ⟨s1, he1, hfu1, hpu1, hm1, hmk1, hr1, hrk1, ha1, hb1, hc1, hd1, he1', hf1', hg1'⟩ :=
    settingsStep_ok R s m r0 u.name
      (fun n m => { m with mname := n }) (fun n r => { r with rname := n })
      (fun n r => rfl) hf hp hm hr
  obtain ⟨s2, he2, hfu2, hpu2, hm2, hmk2, hr2, hrk2, ha2, hb2, hc2, hd2, he2', hf2', hg2'⟩ :=
    settingsStep_ok R s1 _ _ u.votingSystem
      (fun n m => { m with votingSystem := n }) (fun n r => { r with votingSystem := n })
      (fun n r => rfl) hfu1 hpu1 hm1 hr1
  -- the Fast-Store-only revealPolicy step
  have hstep3 : ∃ s3, (match u.revealPolicy with
      | none => s2
      | some rp => modifyMeta s2 R (fun m => { m with revealPolicy := rp })) = s3 ∧
      alookup s3.fast.meta R = some ((u.revealPolicy).elim
        (u.votingSystem.elim (u.name.elim m (fun n => { m with mname := n }))
          (fun n => { (u.name.elim m (fun n' => { m with mname := n' })) with votingSystem := n }))
        (fun rp => { (u.votingSystem.elim (u.name.elim m (fun n => { m with mname := n }))
          (fun n => { (u.name.elim m (fun n' => { m with mname := n' })) with votingSystem := n })) with revealPolicy := rp })) ∧
      (∀ k, k ≠ R → alookup s3.fast.meta k = alookup s2.fast.meta k) ∧
      s3.pg = s2.pg ∧ s3.fast.members = s2.fast.members ∧
      s3.fast.userData = s2.fast.userData ∧ s3.fast.votes = s2.fast.votes ∧
      s3.fast.sockets = s2.fast.sockets := by
    cases hrp : u.revealPolicy with
    | none =>
      refine ⟨s2, rfl, ?_, fun k _ => rfl, rfl, rfl, rfl, rfl, rfl⟩
      rw [hm2]
      cases u.name <;> cases u.votingSystem <;> rfl
    | some rp =>
      refine ⟨modifyMeta s2 R (fun m => { m with revealPolicy := rp }), rfl, ?_, ?_, ?_, ?_, ?_, ?_, ?_⟩
      all_goals unfold modifyMeta
      all_goals rw [hm2]
      · rw [alookup_aset_self]
        cases u.name <;> cases u.votingSystem <;> rfl
      · intro k hk
        exact alookup_aset_ne _ _ _ _ hk
  obtain ⟨s3, he3, hm3, hmk3, hpg3, ha3, hb3, hc3, hd3⟩ := hstep3
  refine ⟨s3, ?_, ?_, ?_, ?_, ?_, ?_, ?_, ?_, ?_, ?_, ?_, ?_⟩
  · unfold updateSettings
    simp only [hf, hm, Option.isNone_some, Bool.not_true, Bool.false_eq_true,
      if_false, he1, he2, he3]
  · rw [hm3]
    cases u.name <;> cases u.votingSystem <;> cases u.revealPolicy <;> rfl
  · intro k hk
    rw [hmk3 k hk, hmk2 k hk, hmk1 k hk]
  · rw [hpg3, hr2]
    cases u.name <;> cases u.votingSystem <;> rfl
  · intro k hk
    rw [show pgFindRoom s3.pg k = pgFindRoom s2.pg k by rw [hpg3],
      hrk2 k hk, hrk1 k hk]
  · rw [ha3, ha2, ha1]
  · rw [hb3, hb2, hb1]
  · rw [hc3, hc2, hc1]
  · rw [hd3, hd2, hd1]
  · rw [show s3.pg = s2.pg from hpg3, he2', he1']
  · rw [show s3.pg = s2.pg from hpg3, hf2', hf1']
  · rw [show s3.pg = s2.pg from hpg3, hg2', hg1']

/-- A warm room for the `updateSettings` claims. -/
def c7Meta : MetaHash :=
  { mid := "R", mname := "Sprint", adminId := "h1", votingSystem := "fibonacci",
    revealPolicy := "everyone", revealed := "false", createdAt := "0" }

def c7Row : PgRoom := ⟨"R", "Sprint", "h1", "fibonacci", false, 0⟩

def c7State : Sys :=
  { fast := { meta := [("R", c7Meta)], members := [("R", ["u1"])],
              userData := [], votes := [], sockets := [] },
    pg := { rooms := [c7Row], users := [], participants := [], votes := [] },
    fastUp := true, pgUp := true }

/-- C7 counterexample: a payload supplying only `countdownEnabled` leaves
the entire system state — both stores — exactly unchanged, so the supplied
field is not written to the Fast Store (nor anywhere else). -/
theorem updateSettings_countdown_ignored_cex :
    updateSettings "R" ⟨none, none, none, some true⟩ c7State = .ok (true, c7State) := rfl

def c7U : UpdateSettingsPayload :=
  ⟨some "Planning", some "tshirts", some "admin", some true⟩

/-- Witness for the amended C7 at a concrete room and payload. -/
theorem updateSettings_spec_witness :
    ∃ s', updateSettings "R" c7U c7State = .ok (true, s') ∧
      alookup s'.fast.meta "R" = some { c7Meta with
        mname := c7U.name.getD c7Meta.mname,
        votingSystem := c7U.votingSystem.getD c7Meta.votingSystem,
        revealPolicy := c7U.revealPolicy.getD c7Meta.revealPolicy } ∧
      (∀ k, k ≠ "R" → alookup s'.fast.meta k = alookup c7State.fast.meta k) ∧
      pgFindRoom s'.pg "R" = some { c7Row with
        rname := c7U.name.getD c7Row.rname,
        votingSystem := c7U.votingSystem.getD c7Row.votingSystem } ∧
      (∀ k, k ≠ "R" → pgFindRoom s'.pg k = pgFindRoom c7State.pg k) ∧
      s'.fast.members = c7State.fast.members ∧ s'.fast.userData = c7State.fast.userData ∧
      s'.fast.votes = c7State.fast.votes ∧ s'.fast.sockets = c7State.fast.sockets ∧
      s'.pg.users = c7State.pg.users ∧ s'.pg.participants = c7State.pg.participants ∧
      s'.pg.votes = c7State.pg.votes :=
  updateSettings_spec c7State "R" c7U c7Meta c7Row rfl rfl rfl rfl

/-! ## `deleteRoom` (C8) -/

/-- Filtering a key away makes `find?` for that key miss. -/
theorem find?_filter_bne {α : Type} (l : List α) (key : α → String) (R : String) :
    (l.filter (fun v => key v != R)).find? (fun v => key v == R) = none := by
  induction l with
  | nil => rfl
  | cons a rest ih =>
    by_cases h : key a = R <;> simp [List.filter_cons, h, List.find?_cons, ih]

/-- C8 (amended): a Fast Store failure makes `deleteRoom` throw to the
caller (it is not tolerated); with the Fast Store up, all the room's Fast
Store keys (meta, member set, user-data hash, vote hash, each current
member's socket set) are removed, and then: a Durable Store failure is
caught and reported as `ok = false` with the durable rows untouched, while
with the Durable Store up the durable participant rows and vote rows are
removed, and if the room row exists it is removed and the call returns
`ok = true`. -/
theorem deleteRoom_spec (s : Sys) (R : String) :
    (s.fastUp = false → deleteRoom R s = .error ()) ∧
    (s.fastUp = true → ∃ ok s', deleteRoom R s = .ok (ok, s') ∧
      alookup s'.fast.meta R = none ∧ alookup s'.fast.members R = none ∧
      alookup s'.fast.userData R = none ∧ alookup s'.fast.votes R = none ∧
      (∀ u ∈ (alookup s.fast.members R).getD [], alookup s'.fast.sockets (R, u) = none) ∧
      (s.pgUp = false → ok = false ∧ s'.pg = s.pg) ∧
      (s.pgUp = true →
        s'.pg.participants.filter (fun p => p.roomId == R) = [] ∧
        s'.pg.votes.filter (fun v => v.roomId == R) = [] ∧
        (pgFindRoom s.pg R ≠ none → ok = true ∧ pgFindRoom s'.pg R = none))) := by
  have hsock : ∀ u ∈ (alookup s.fast.members R).getD [],
      alookup (s.fast.sockets.filter (fun p =>
        !(p.1.1 == R && ((alookup s.fast.members R).getD []).contains p.1.2))) (R, u)
        = none := by
    intro u hu
    refine alookup_filter_key s.fast.sockets
      (fun key => !(key.1 == R && ((alookup s.fast.members R).getD []).contains key.2))
      (R, u) ?_
    simp [hu]
  constructor
  · intro hf
    unfold deleteRoom
    simp [hf]
  · intro hf
    by_cases hp : s.pgUp
    · cases hfind : pgFindRoom s.pg R with
      | some r0 =>
        refine ⟨true, { s with fast := { s.fast with meta := adel s.fast.meta R, members := adel s.fast.members R, userData := adel s.fast.userData R, votes := adel s.fast.votes R, sockets := (s.fast.sockets.filter (fun p => !(p.1.1 == R && ((alookup s.fast.members R).getD []).contains p.1.2))) }, pg := { s.pg with rooms := (s.pg.rooms.filter (fun r => r.rid != R)), participants := (s.pg.participants.filter (fun p => p.roomId != R)), votes := (s.pg.votes.filter (fun v => v.roomId != R)) } },
          ?_, alookup_adel_self _ _, alookup_adel_self _ _,
          alookup_adel_self _ _, alookup_adel_self _ _, hsock, ?_, ?_⟩
        · unfold deleteRoom
          simp only [hf, hp, Bool.not_true, Bool.false_eq_true, if_false]
          rw [show pgFindRoom { s.pg with
              participants := s.pg.participants.filter (fun p => p.roomId != R),
              votes := s.pg.votes.filter (fun v => v.roomId != R) } R
            = some r0 from hfind]
        · intro hcon; rw [hcon] at hp; cases hp
        · intro _
          refine ⟨filter_bne_beq _ _ _, filter_bne_beq _ _ _, fun _ => ⟨rfl, ?_⟩⟩
          exact find?_filter_bne _ _ _
      | none =>
        refine ⟨false, { s with fast := { s.fast with meta := adel s.fast.meta R, members := adel s.fast.members R, userData := adel s.fast.userData R, votes := adel s.fast.votes R, sockets := (s.fast.sockets.filter (fun p => !(p.1.1 == R && ((alookup s.fast.members R).getD []).contains p.1.2))) }, pg := { s.pg with participants := (s.pg.participants.filter (fun p => p.roomId != R)), votes := (s.pg.votes.filter (fun v => v.roomId != R)) } },
          ?_, alookup_adel_self _ _, alookup_adel_self _ _,
          alookup_adel_self _ _, alookup_adel_self _ _, hsock, ?_, ?_⟩
        · unfold deleteRoom
          simp only [hf, hp, Bool.not_true, Bool.false_eq_true, if_false]
          rw [show pgFindRoom { s.pg with
              participants := s.pg.participants.filter (fun p => p.roomId != R),
              votes := s.pg.votes.filter (fun v => v.roomId != R) } R
            = none from hfind]
        · intro hcon; rw [hcon] at hp; cases hp
        · intro _
          exact ⟨filter_bne_beq _ _ _, filter_bne_beq _ _ _,
            fun hcon => absurd rfl hcon⟩
    · refine ⟨false, { s with fast := { s.fast with meta := adel s.fast.meta R, members := adel s.fast.members R, userData := adel s.fast.userData R, votes := adel s.fast.votes R, sockets := (s.fast.sockets.filter (fun p => !(p.1.1 == R && ((alookup s.fast.members R).getD []).contains p.1.2))) } },
        ?_, alookup_adel_self _ _, alookup_adel_self _ _,
        alookup_adel_self _ _, alookup_adel_self _ _, hsock, fun _ => ⟨rfl, rfl⟩, ?_⟩
      · unfold deleteRoom
        simp only [hf, Bool.not_true, Bool.false_eq_true, if_false]
        rw [if_pos (by simp [hp])]
      · intro hcon; exact absurd hcon hp

/-- A warm room with one member, socket, vote and participant — but the
Fast Store is down. -/
def c8DownState : Sys :=
  { fast := { meta := [("R", c7Meta)], members := [("R", ["u1"])],
              userData := [], votes := [("R", [("u1", "3")])],
              sockets := [(("R", "u1"), ["s1"])] },
    pg := { rooms := [⟨"R", "Sprint", "h1", "fibonacci", false, 0⟩],
            users := [⟨"u1", "Alice"⟩], participants := [⟨"R", "u1", 0⟩],
            votes := [⟨"R", "u1", "3"⟩] },
    fastUp := false, pgUp := true }

/-- C8 counterexample: with the Fast Store down (its `SMEMBERS`/`DEL`
throwing), `deleteRoom` propagates the exception to the caller instead of
tolerating the cleanup failure — the durable rows are never reached. -/
theorem deleteRoom_fastfail_cex :
    deleteRoom "R" c8DownState = .error () := rfl

/-- The same room with both stores reachable. -/
def c8State : Sys :=
  { c8DownState with fastUp := true }

/-- Witness for the amended C8 at a concrete room. -/
theorem deleteRoom_spec_witness :
    ∃ ok s', deleteRoom "R" c8State = .ok (ok, s') ∧
      alookup s'.fast.meta "R" = none ∧ alookup s'.fast.members "R" = none ∧
      alookup s'.fast.userData "R" = none ∧ alookup s'.fast.votes "R" = none ∧
      (∀ u ∈ (alookup c8State.fast.members "R").getD [],
        alookup s'.fast.sockets ("R", u) = none) ∧
      (c8State.pgUp = false → ok = false ∧ s'.pg = c8State.pg) ∧
      (c8State.pgUp = true →
        s'.pg.participants.filter (fun p => p.roomId == "R") = [] ∧
        s'.pg.votes.filter (fun v => v.roomId == "R") = [] ∧
        (pgFindRoom c8State.pg "R" ≠ none → ok = true ∧ pgFindRoom s'.pg "R" = none)) :=
  (deleteRoom_spec c8State "R").2 rfl

/-! ## Active member counting (C10) -/

/-- C10: `getActiveUserCount` returns 0 when the room is absent from both
stores, and otherwise the size of the room's Fast-Store member set with
the room's admin id excluded; the `activeUsers` figure `getUserRooms`
attaches to each returned room is computed the same way. -/
theorem getActiveUserCount_spec (s : Sys) (R uid : String) (lim off : Nat)
    (hf : s.fastUp = true) (hp : s.pgUp = true) :
    ((alookup s.fast.meta R = none ∧ pgFindRoom s.pg R = none) →
      getActiveUserCount R s = .ok (0, s)) ∧
    (∀ r s1, getRoom R s = .ok (some r, s1) →
      getActiveUserCount R s = .ok ((((alookup s1.fast.members R).getD []).filter
        (fun i => i != r.adminId)).length, s1)) ∧
    (∀ out s1, getUserRooms uid lim off s = .ok (out, s1) →
      ∀ e ∈ out.1, e.activeUsers = (((alookup s.fast.members e.id).getD []).filter
        (fun i => i != e.adminId)).length) := by
  refine ⟨?_, ?_, ?_⟩
  · rintro ⟨hm, hr⟩
    unfold getActiveUserCount getRoom
    simp [hf, hm, hp, hr]
  · intro r s1 hg
    obtain ⟨-, -, -, -, -, hfu, -⟩ := getRoom_frame R s (some r) s1 hg
    unfold getActiveUserCount
    rw [hg]
    simp [hfu, hf]
  · intro out s1 hg
    unfold getUserRooms at hg
    simp only [hp, hf, Bool.not_true, Bool.false_eq_true, if_false] at hg
    simp only [Except.ok.injEq, Prod.mk.injEq] at hg
    obtain ⟨h1, -⟩ := hg
    subst h1
    intro e he
    rcases List.mem_map.mp he with ⟨r, -, rfl⟩
    rfl

/-- A room with admin `h1` and two non-admin members. -/
def c10State : Sys :=
  { fast := { meta := [("R", c7Meta)], members := [("R", ["h1", "u1", "u2"])],
              userData := [], votes := [], sockets := [] },
    pg := { rooms := [⟨"R", "Sprint", "h1", "fibonacci", false, 0⟩],
            users := [], participants := [], votes := [] },
    fastUp := true, pgUp := true }

/-- Witness for C10: the count excludes the admin id. -/
theorem getActiveUserCount_spec_witness :
    getActiveUserCount "R" c10State =
      .ok ((((alookup c10State.fast.members "R").getD []).filter
        (fun i => i != (metaToView c7Meta).adminId)).length, c10State) :=
  (getActiveUserCount_spec c10State "R" "u1" 20 0 rfl rfl).2.1
    (metaToView c7Meta) c10State rfl

/-! ## Rehydration from a fully cold Fast Store (C3) -/

/-- A room entirely cold in the Fast Store, with durable participants
`{A, B}` and the single vote record `A ↦ "5"`. -/
def c3State (A B nA nB : String) : Sys :=
  { fast := { meta := [], members := [], userData := [], votes := [], sockets := [] },
    pg := { rooms := [⟨"R", "Sprint", "h1", "fibonacci", false, 0⟩],
            users := [⟨A, nA⟩, ⟨B, nB⟩],
            participants := [⟨"R", A, 0⟩, ⟨"R", B, 1⟩],
            votes := [⟨"R", A, "5"⟩] },
    fastUp := true, pgUp := true }

/-- C3: on a fully cold Fast Store, `getRoomState(R, A)` rehydrates from
the Durable Store without failing: it returns members
`[A (hasVoted=true), B (hasVoted=false)]` and votes `{A: "5"}`, and the
rehydrated member set and vote hash are written back into the Fast
Store. -/
theorem getRoomState_rehydrates (A B nA nB : String)
    (hAB : A ≠ B) (hA : nA ≠ "") (hB : nB ≠ "") :
    ∃ s', getRoomState "R" (some A) (c3State A B nA nB) = .ok (some
      { id := "R", name := "Sprint", adminId := "h1", votingSystem := "fibonacci",
        revealPolicy := "everyone",
        users := [⟨A, nA, true⟩, ⟨B, nB, false⟩],
        votes := [(A, some "5")], revealed := false }, s') ∧
      (alookup s'.fast.members "R").getD [] = [A, B] ∧
      alookup (hgetallH s'.fast.votes "R") A = some "5" := by
  have hBA : ¬B = A := fun hh => hAB hh.symm
  refine ⟨{ fast := { meta := [("R", { mid := "R", mname := "Sprint", adminId := "h1", votingSystem := "fibonacci", revealPolicy := "everyone", revealed := "false", createdAt := toString (0 : Int) })], members := [("R", [A, B])], userData := [("R", [(A, ⟨A, nA⟩), (B, ⟨B, nB⟩)])], votes := [("R", [(A, "5")])], sockets := [] }, pg := (c3State A B nA nB).pg, fastUp := true, pgUp := true }, ?_, ?_, ?_⟩
  · simp [getRoomState, getRoom, loadRoomData, buildState, mkMember, metaToView,
      pgFindRoom, hgetallH, c3State, alookup, aset, sadd, truthy, hAB, hA, hB, hBA]
  · simp [alookup]
  · simp [hgetallH, alookup]

/-- Witness for C3 at concrete ids and names. -/
theorem getRoomState_rehydrates_witness :
    ∃ s', getRoomState "R" (some "a") (c3State "a" "b" "Alice" "Bob") = .ok (some
      { id := "R", name := "Sprint", adminId := "h1", votingSystem := "fibonacci",
        revealPolicy := "everyone",
        users := [⟨"a", "Alice", true⟩, ⟨"b", "Bob", false⟩],
        votes := [("a", some "5")], revealed := false }, s') ∧
      (alookup s'.fast.members "R").getD [] = ["a", "b"] ∧
      alookup (hgetallH s'.fast.votes "R") "a" = some "5" :=
  getRoomState_rehydrates "a" "b" "Alice" "Bob" (by decide) (by decide) (by decide)

end VoteDeck
